import Mathlib

/-!
Verification development for the difficulty-retargeting engine and the network
registry of the vertiond/btcd `chaincfg` package (`params.go`).

The Go code is shallowly embedded as follows.

* Machine integers are modeled as `Int`/`Nat`.  Go `int32` results are
  normalized with `goInt32` (two's-complement wrap-around); Go's truncating
  `/` and `%` on machine integers are `Int.tdiv`/`Int.tmod`; `math/big.Int`'s
  `Div` (Euclidean division, remainder always nonnegative) is `Int.ediv`.
* `time.Duration` values are `Int` nanosecond counts.  `d.Seconds()` truncated
  to `int64` is modeled as `Int.tdiv d 1000000000`, which agrees with the
  Go float64 computation for every whole-second duration (all durations of
  the repository's parameter records are whole seconds).
* The `io.ReadSeeker` of serialized headers is a `ByteStore`: a size plus a
  byte-valued function of absolute byte positions.  Each `Deserialize` in the
  source is immediately preceded by a `Seek` to an absolute offset, so both
  are modeled together by `readHeaderAt`.  A negative seek offset fails the
  seek; fewer than 80 remaining bytes fail the deserialization.  Go's
  `(0, err)` return convention for `(uint32, error)` pairs is modeled by
  `Except DiffError Nat`, whose `.error` case carries exactly the failure.
* The compact-target codec lives in the repository's `chaincfg/difficulty`
  package, which is not among the provided source files; `CompactToBig` and
  `BigToCompact` are modeled from the spec's codec contract (section 4.1).
* The double-precision Kimoto-Gravity-Well event-horizon comparison
  (`rateAdjustmentRatio` against `eventHorizonDeviation`, source lines
  498-506) is floating-point code; it is abstracted as an oracle parameter
  `eh : Int → Int → Int → Bool` receiving `blocksScanned`, `actualRate` and
  `targetRate`, the three integers the comparison is computed from.
-/

/-- Two's-complement wrap-around of an integer into the `int32` range,
modeling Go `int32` arithmetic results and `int32(...)` conversions. -/
def goInt32 (n : Int) : Int :=
  (n + 2147483648).emod 4294967296 - 2147483648

/-- Fuel-driven byte-length helper (structural recursion so that concrete
values reduce in the kernel). -/
def byteLenF : Nat → Nat → Nat
  | 0, _ => 0
  | fuel + 1, n => if n = 0 then 0 else byteLenF fuel (n / 256) + 1

/-- Number of bytes of the big-endian representation of `n`, i.e. the length
of Go's `big.Int.Bytes()`; `byteLen n ≤ n` recursion steps always suffice. -/
def byteLen (n : Nat) : Nat := byteLenF n n

/-- Modelled from the spec: `compactToTarget` of the CompactTarget codec
(spec 4.1), the repository's `difficulty.CompactToBig`, whose source file is
not among the provided files.  Compact form is one exponent byte (number of
significant bytes) and three mantissa bytes; bit 23 is the sign flag.  The
bit operations are written via `/`, `%` and powers of 256:
`c & 0x007fffff = c % 8388608`, `c & 0x00800000 ≠ 0 ↔ c / 8388608 % 2 = 1`,
`c >> 24 = c / 16777216`, and shifts by `8*k` bits are `* / 256^k`. -/
def CompactToBig (c : Nat) : Int :=
  let mantissa : Nat := c % 8388608
  let isNegative : Bool := c / 8388608 % 2 = 1
  let exponent : Nat := c / 16777216
  let bn : Int :=
    if exponent ≤ 3 then ((mantissa / 256 ^ (3 - exponent) : Nat) : Int)
    else ((mantissa * 256 ^ (exponent - 3) : Nat) : Int)
  if isNegative then -bn else bn

/-- Modelled from the spec: `targetToCompact` of the CompactTarget codec
(spec 4.1), the repository's `difficulty.BigToCompact`.  The exponent is the
byte length of `|n|`; the mantissa is the three most significant bytes; if the
mantissa would set the sign bit it is shifted right one byte and the exponent
is incremented; for a negative input the sign bit is set in the result.  The
`uint32` truncation of `exponent << 24` is the `% 256` on the exponent.
`btcMantissaExp` computes the adjusted (mantissa, exponent) pair of the
magnitude; `BigToCompact` assembles the compact word and the sign bit. -/
def btcMantissaExp (n : Nat) : Nat × Nat :=
  let exponent : Nat := byteLen n
  let mantissa : Nat :=
    if exponent ≤ 3 then n * 256 ^ (3 - exponent)
    else n / 256 ^ (exponent - 3)
  if 8388608 ≤ mantissa then (mantissa / 256, exponent + 1) else (mantissa, exponent)

/-- The assembly of the compact word from the adjusted mantissa/exponent pair
of `btcMantissaExp`. -/
def BigToCompact (n : Int) : Nat :=
  if n = 0 then 0 else
  let me : Nat × Nat := btcMantissaExp n.natAbs
  let compact : Nat := me.2 % 256 * 16777216 + me.1
  if n < 0 then compact + 8388608 else compact

/-- One parsed block header (`wire.BlockHeader`): 4-byte version, 32-byte
previous hash, 32-byte merkle root, 4-byte timestamp (Unix seconds), 4-byte
bits, 4-byte nonce, all little-endian (spec section 6).  Multi-byte numeric
fields are kept as their decoded values. -/
structure BlockHeader where
  version : Nat
  prevBlock : List Nat
  merkleRoot : List Nat
  timestamp : Nat
  bits : Nat
  nonce : Nat
deriving Repr

/-- A byte-addressable seekable store of serialized headers
(the `io.ReadSeeker` the algorithms read from). -/
structure ByteStore where
  size : Nat
  byteAt : Nat → Nat

/-- Errors of a header read: a failed seek (negative absolute offset) or a
failed deserialization (fewer than 80 bytes at the read position). -/
inductive DiffError where
  | seekFailed : DiffError
  | deserializeFailed : DiffError
deriving DecidableEq, Repr

/-- Little-endian decoding of four bytes. -/
def le32 (b0 b1 b2 b3 : Nat) : Nat :=
  b0 + 256 * b1 + 65536 * b2 + 16777216 * b3

/-- Deserialize the 80-byte header at byte position `base`
(`wire.BlockHeader.Deserialize` over the 80-byte wire layout). -/
def parseHeaderAt (s : ByteStore) (base : Nat) : BlockHeader :=
  { version := le32 (s.byteAt base) (s.byteAt (base + 1)) (s.byteAt (base + 2)) (s.byteAt (base + 3))
    prevBlock := (List.range 32).map fun k => s.byteAt (base + 4 + k)
    merkleRoot := (List.range 32).map fun k => s.byteAt (base + 36 + k)
    timestamp := le32 (s.byteAt (base + 68)) (s.byteAt (base + 69)) (s.byteAt (base + 70)) (s.byteAt (base + 71))
    bits := le32 (s.byteAt (base + 72)) (s.byteAt (base + 73)) (s.byteAt (base + 74)) (s.byteAt (base + 75))
    nonce := le32 (s.byteAt (base + 76)) (s.byteAt (base + 77)) (s.byteAt (base + 78)) (s.byteAt (base + 79)) }

/-- `r.Seek(off, os.SEEK_SET)` followed by `hdr.Deserialize(r)`: the seek
fails on a negative absolute offset; the deserialization fails when fewer
than 80 bytes lie at the position. -/
def readHeaderAt (s : ByteStore) (off : Int) : Except DiffError BlockHeader :=
  if off < 0 then .error .seekFailed
  else if off.toNat + 80 ≤ s.size then .ok (parseHeaderAt s off.toNat)
  else .error .deserializeFailed

/-- The fields of `chaincfg.Params` consumed by the retargeting algorithms
(durations in nanoseconds, as Go `time.Duration`). -/
structure Params where
  powLimit : Int
  powLimitBits : Nat
  targetTimespan : Int
  targetTimePerBlock : Int
  retargetAdjustmentFactor : Int
  reduceMinDifficulty : Bool

/-- `calcDiffAdjustBitcoin` (params.go lines 271-298): clamp the signed
nanosecond duration between the two headers' timestamps into the
seconds-valued retarget bounds, scale the decoded previous target by
`duration / targetTimespanSeconds` (multiply first, then Euclidean-divide,
as `big.Int.Div` does), clamp to the decoded `PowLimitBits`, re-encode. -/
def calcDiffAdjustBitcoin (start end_ : BlockHeader) (p : Params) : Nat :=
  let minRetargetTimespan : Int :=
    Int.tdiv (Int.tdiv p.targetTimespan 1000000000) p.retargetAdjustmentFactor
  let maxRetargetTimespan : Int :=
    Int.tdiv p.targetTimespan 1000000000 * p.retargetAdjustmentFactor
  let duration : Int :=
    (end_.timestamp : Int) * 1000000000 - (start.timestamp : Int) * 1000000000
  let duration : Int :=
    if duration < minRetargetTimespan then minRetargetTimespan
    else if duration > maxRetargetTimespan then maxRetargetTimespan
    else duration
  let prevTarget : Int := CompactToBig start.bits
  let newTarget : Int := prevTarget * duration
  let newTarget : Int := Int.ediv newTarget (Int.tdiv p.targetTimespan 1000000000)
  let powLimit : Int := CompactToBig p.powLimitBits
  let newTarget : Int := if newTarget > powLimit then powLimit else newTarget
  BigToCompact newTarget

/-- The epoch length `int32(p.TargetTimespan / p.TargetTimePerBlock)`
computed identically at the top of `BTCDiff` and `LTCDiff`. -/
def epochLengthOf (p : Params) : Int :=
  goInt32 (Int.tdiv p.targetTimespan p.targetTimePerBlock)

/-- `BTCDiff` (params.go lines 300-355): read the previous, current and
epoch-start headers; at an epoch boundary apply `calcDiffAdjustBitcoin` to
(epoch start, previous); otherwise echo the epoch-start bits, relaxed to
`PowLimitBits` on reduced-difficulty networks after a slow block. -/
def BTCDiff (r : ByteStore) (height startheight : Int) (p : Params) : Except DiffError Nat :=
  let epochLength : Int := epochLengthOf p
  let offsetHeight : Int := goInt32 (height - startheight)
  match readHeaderAt r (goInt32 (80 * goInt32 (offsetHeight - 1))) with
  | .error e => .error e
  | .ok prev =>
  match readHeaderAt r (goInt32 (80 * offsetHeight)) with
  | .error e => .error e
  | .ok cur =>
  match readHeaderAt r (goInt32 (80 * goInt32 (offsetHeight - Int.tmod height epochLength))) with
  | .error e => .error e
  | .ok epochStart =>
    if Int.tmod height epochLength = 0 then
      .ok (calcDiffAdjustBitcoin epochStart prev p)
    else if p.reduceMinDifficulty = true ∧
        (cur.timestamp : Int) * 1000000000 >
          (prev.timestamp : Int) * 1000000000 + p.targetTimePerBlock * 2 then
      .ok p.powLimitBits
    else
      .ok epochStart.bits

/-- `LTCDiff` (params.go lines 357-431): identical to `BTCDiff` except that at
an epoch boundary the epoch-start header is re-read, from absolute byte
offset 0 when `height == epochLength` and otherwise from absolute byte offset
`int64(offsetHeight - epochLength)` (the source passes this `int32`
difference to `Seek` without the `80*` scaling used by every other read). -/
def LTCDiff (r : ByteStore) (height startheight : Int) (p : Params) : Except DiffError Nat :=
  let epochLength : Int := epochLengthOf p
  let offsetHeight : Int := goInt32 (height - startheight)
  match readHeaderAt r (goInt32 (80 * goInt32 (offsetHeight - 1))) with
  | .error e => .error e
  | .ok prev =>
  match readHeaderAt r (goInt32 (80 * offsetHeight)) with
  | .error e => .error e
  | .ok cur =>
  match readHeaderAt r (goInt32 (80 * goInt32 (offsetHeight - Int.tmod height epochLength))) with
  | .error e => .error e
  | .ok epochStart =>
    if Int.tmod height epochLength = 0 then
      match readHeaderAt r (if height = epochLength then 0 else goInt32 (offsetHeight - epochLength)) with
      | .error e => .error e
      | .ok epochStart2 => .ok (calcDiffAdjustBitcoin epochStart2 prev p)
    else if p.reduceMinDifficulty = true ∧
        (cur.timestamp : Int) * 1000000000 >
          (prev.timestamp : Int) * 1000000000 + p.targetTimePerBlock * 2 then
      .ok p.powLimitBits
    else
      .ok epochStart.bits

/-- The mutable locals of the Kimoto-Gravity-Well backward scan
(`calcDiffAdjustKGW`, params.go lines 459-468). -/
structure KGWState where
  currentBlock : BlockHeader
  blocksScanned : Int
  actualRate : Int
  targetRate : Int
  difficultyAverage : Int
  previousDifficultyAverage : Int
  currentHeight : Int

/-- The backward scan of `calcDiffAdjustKGW` (params.go lines 470-525).
`fuel` only bounds the recursion depth: started at 4033 with `i = 1`, it
cannot reach 0 before the `i > 4032` break fires, so the `fuel = 0` branch is
unreachable and mirrors that break.  `eh` is the oracle for the
double-precision event-horizon deviation comparison (see the file header). -/
def kgwIter (eh : Int → Int → Int → Bool) (r : ByteStore) (startheight : Int) (p : Params)
    (lastSolved : BlockHeader) : Nat → Int → KGWState → Except DiffError KGWState
  | 0, _, st => .ok st
  | fuel + 1, i, st =>
    if st.currentHeight = 1 then .ok st
    else if i > 4032 then .ok st
    else
      let blocksScanned : Int := st.blocksScanned + 1
      let difficultyAverage : Int :=
        if i = 1 then CompactToBig st.currentBlock.bits
        else Int.ediv (CompactToBig st.currentBlock.bits - st.previousDifficultyAverage) i +
          st.previousDifficultyAverage
      let previousDifficultyAverage : Int := difficultyAverage
      let actualRate0 : Int := (lastSolved.timestamp : Int) - (st.currentBlock.timestamp : Int)
      let actualRate : Int := if actualRate0 < 0 then 0 else actualRate0
      let targetRate : Int := Int.tdiv p.targetTimePerBlock 1000000000 * blocksScanned
      let st' : KGWState :=
        { st with
          blocksScanned := blocksScanned
          actualRate := actualRate
          targetRate := targetRate
          difficultyAverage := difficultyAverage
          previousDifficultyAverage := previousDifficultyAverage }
      if blocksScanned ≥ 144 ∧ eh blocksScanned actualRate targetRate = true then .ok st'
      else if st.currentHeight < 1 then .ok st'
      else
        let currentHeight : Int := st.currentHeight - 1
        match readHeaderAt r (goInt32 (80 * goInt32 (currentHeight - startheight))) with
        | .error e => .error e
        | .ok cb =>
          kgwIter eh r startheight p lastSolved fuel (i + 1)
            { st' with currentBlock := cb, currentHeight := currentHeight }

/-- The post-scan arithmetic of `calcDiffAdjustKGW` (params.go lines
527-538): rescale the accumulated weighted average by
`actualRate / targetRate` (skipped when either is zero), clamp to
`p.PowLimit`, re-encode. -/
def kgwFinalize (st : KGWState) (p : Params) : Nat :=
  let newTarget : Int := st.difficultyAverage
  let newTarget : Int :=
    if st.actualRate ≠ 0 ∧ st.targetRate ≠ 0 then
      Int.ediv (newTarget * st.actualRate) st.targetRate
    else newTarget
  let newTarget : Int := if newTarget > p.powLimit then p.powLimit else newTarget
  BigToCompact newTarget

/-- `calcDiffAdjustKGW` (params.go lines 434-539): with fewer than
`minBlocks = 144` predecessors return `PowLimitBits` at once; otherwise read
the block before `height` and run the bounded backward scan, then finalize. -/
def calcDiffAdjustKGW (eh : Int → Int → Int → Bool) (r : ByteStore)
    (height startheight : Int) (p : Params) : Except DiffError Nat :=
  if goInt32 (height - 1) < 144 then .ok p.powLimitBits
  else
    let offsetHeight : Int := goInt32 (goInt32 (height - startheight) - 1)
    match readHeaderAt r (goInt32 (80 * offsetHeight)) with
    | .error e => .error e
    | .ok currentBlock =>
      match kgwIter eh r startheight p currentBlock 4033 1
          { currentBlock := currentBlock, blocksScanned := 0, actualRate := 0,
            targetRate := 0, difficultyAverage := 0, previousDifficultyAverage := 0,
            currentHeight := goInt32 (height - 1) } with
      | .error e => .error e
      | .ok st => .ok (kgwFinalize st p)

/-- `VTCTestDiff` (params.go lines 541-569): below height 2116 delegate to
`LTCDiff`; at heights not divisible by 12 echo the previous block's bits;
every 12th block runs the gravity well. -/
def VTCTestDiff (eh : Int → Int → Int → Bool) (r : ByteStore)
    (height startheight : Int) (p : Params) : Except DiffError Nat :=
  if height < 2116 then LTCDiff r height startheight p
  else
    let offsetHeight : Int := goInt32 (height - startheight)
    if Int.tmod height 12 ≠ 0 then
      match readHeaderAt r (goInt32 (80 * goInt32 (offsetHeight - 1))) with
      | .error e => .error e
      | .ok prev => .ok prev.bits
    else
      calcDiffAdjustKGW eh r height startheight p

/-- Errors of the registry (`ErrDuplicateNet`, `ErrInvalidHDKeyID`,
`ErrUnknownHDKeyID`, params.go lines 1024-1038). -/
inductive RegError where
  | duplicateNet : RegError
  | invalidHDKeyID : RegError
  | unknownHDKeyID : RegError
deriving DecidableEq, Repr

/-- The package-level registry maps (params.go lines 1040-1046).  Go sets
(`map[...]struct{}`) are membership lists; the HD map is an association list
whose insert replaces any previous binding of the key. -/
structure Registry where
  registeredNets : List Nat
  pubKeyHashAddrIDs : List Nat
  scriptHashAddrIDs : List Nat
  bech32SegwitHRPs : List String
  hdPrivToPubKeyIDs : List (List Nat × List Nat)

/-- Go map insertion for a set: a no-op on a present key. -/
def setInsert (l : List Nat) (x : Nat) : List Nat :=
  if x ∈ l then l else x :: l

/-- Go map insertion for the HD key map: bind `k` to `v`, dropping any
previous binding. -/
def assocSet (l : List (List Nat × List Nat)) (k v : List Nat) :
    List (List Nat × List Nat) :=
  (k, v) :: l.filter fun kv => kv.1 ≠ k

/-- Go `copy(keyID[:], bs)` into a zeroed `[4]byte`. -/
def keyOf (bs : List Nat) : List Nat := (bs ++ [0, 0, 0, 0]).take 4

/-- The registry-relevant fields of `chaincfg.Params`; the HD key IDs are
4-tuples because the source fields are fixed `[4]byte` arrays. -/
structure RegParams where
  net : Nat
  pubKeyHashAddrID : Nat
  scriptHashAddrID : Nat
  bech32HRPSegwit : String
  hdPrivateKeyID : Nat × Nat × Nat × Nat
  hdPublicKeyID : Nat × Nat × Nat × Nat

/-- The `[4]byte` array as the slice `id[:]` passed to `RegisterHDKeyID`. -/
def idSlice (id : Nat × Nat × Nat × Nat) : List Nat :=
  [id.1, id.2.1, id.2.2.1, id.2.2.2]

/-- `RegisterHDKeyID` (params.go lines 1131-1141): reject ids whose length is
not 4 with `ErrInvalidHDKeyID`, else bind the private id to the public id. -/
def RegisterHDKeyID (reg : Registry) (hdPublicKeyID hdPrivateKeyID : List Nat) :
    Registry × Option RegError :=
  if hdPublicKeyID.length ≠ 4 ∨ hdPrivateKeyID.length ≠ 4 then
    (reg, some .invalidHDKeyID)
  else
    ({ reg with hdPrivToPubKeyIDs := assocSet reg.hdPrivToPubKeyIDs (keyOf hdPrivateKeyID) hdPublicKeyID },
      none)

/-- `Register` (params.go lines 1062-1079): fail with `ErrDuplicateNet` on an
already registered net (leaving every map untouched), otherwise record the
net, the address-prefix bytes, the HD key ids and the Bech32 HRP. -/
def Register (reg : Registry) (p : RegParams) : Registry × Option RegError :=
  if p.net ∈ reg.registeredNets then (reg, some .duplicateNet)
  else
    let reg := { reg with
      registeredNets := setInsert reg.registeredNets p.net
      pubKeyHashAddrIDs := setInsert reg.pubKeyHashAddrIDs p.pubKeyHashAddrID
      scriptHashAddrIDs := setInsert reg.scriptHashAddrIDs p.scriptHashAddrID }
    match RegisterHDKeyID reg (idSlice p.hdPublicKeyID) (idSlice p.hdPrivateKeyID) with
    | (reg, some e) => (reg, some e)
    | (reg, none) =>
      ({ reg with bech32SegwitHRPs := (p.bech32HRPSegwit ++ "1") :: reg.bech32SegwitHRPs }, none)

/-- `HDPrivateKeyToPublicKeyID` (params.go lines 1146-1159): any id whose
length is not 4, and any unregistered 4-byte id, yields `ErrUnknownHDKeyID`;
otherwise the registered public key id is returned. -/
def HDPrivateKeyToPublicKeyID (reg : Registry) (id : List Nat) :
    Except RegError (List Nat) :=
  if id.length ≠ 4 then .error .unknownHDKeyID
  else
    match reg.hdPrivToPubKeyIDs.find? (fun kv => kv.1 = keyOf id) with
    | none => .error .unknownHDKeyID
    | some kv => .ok kv.2

/-- Params record of `MainNetParams` (params.go lines 574-665): 3.5-day
target timespan, 2.5-minute blocks, adjustment factor 4, pow limit
`2^224 - 1` with compact form `0x1e0fffff`, no difficulty reduction. -/
def mainNetParams : Params :=
  { powLimit := 2 ^ 224 - 1
    powLimitBits := 0x1e0fffff
    targetTimespan := 302400 * 1000000000
    targetTimePerBlock := 150 * 1000000000
    retargetAdjustmentFactor := 4
    reduceMinDifficulty := false }

/-- Params record of `TestNet3Params` (params.go lines 750-841): same chain
constants as mainnet with `ReduceMinDifficulty` enabled. -/
def testNet3Params : Params :=
  { mainNetParams with reduceMinDifficulty := true }

/-- A synthetic header store of `count` headers whose header `i` carries
timestamp `t0 + spacing * i` and compact bits `bits0`, all other bytes 0. -/
def synthByte (t0 spacing bits0 : Nat) (n : Nat) : Nat :=
  let i := n / 80
  let j := n % 80
  if 68 ≤ j ∧ j < 72 then (t0 + spacing * i) / 256 ^ (j - 68) % 256
  else if 72 ≤ j ∧ j < 76 then bits0 / 256 ^ (j - 72) % 256
  else 0

/-- The synthetic store packaging `synthByte` with its byte count. -/
def synthStore (t0 spacing bits0 count : Nat) : ByteStore :=
  { size := 80 * count, byteAt := synthByte t0 spacing bits0 }

/-- An empty registry state (all five maps empty). -/
def emptyRegistry : Registry :=
  { registeredNets := []
    pubKeyHashAddrIDs := []
    scriptHashAddrIDs := []
    bech32SegwitHRPs := []
    hdPrivToPubKeyIDs := [] }

/-- A registry in which net 5 is already registered. -/
def net5Registry : Registry :=
  { emptyRegistry with registeredNets := [5] }

/-- A registry holding one HD key binding (the mainnet xprv/xpub version
bytes). -/
def boundRegistry : Registry :=
  { emptyRegistry with hdPrivToPubKeyIDs := [([4, 136, 173, 228], [4, 136, 178, 30])] }

/-- A sample registration record with mainnet-style constants and the given
net magic. -/
def sampleRegParams (net : Nat) : RegParams :=
  { net := net
    pubKeyHashAddrID := 71
    scriptHashAddrID := 5
    bech32HRPSegwit := "vtc"
    hdPrivateKeyID := (4, 136, 173, 228)
    hdPublicKeyID := (4, 136, 178, 30) }

/-! ### Helper lemmas -/

theorem goInt32_idem (n : Int) : goInt32 (goInt32 n) = goInt32 n := by
  unfold goInt32
  have h1 : (0:Int) ≤ (n + 2147483648).emod 4294967296 := Int.emod_nonneg _ (by norm_num)
  have h2 : (n + 2147483648).emod 4294967296 < 4294967296 :=
    Int.emod_lt_of_pos _ (by norm_num)
  have h3 : (n + 2147483648).emod 4294967296 - 2147483648 + 2147483648 =
      (n + 2147483648).emod 4294967296 := by ring
  have h4 : ((n + 2147483648).emod 4294967296).emod 4294967296 =
      (n + 2147483648).emod 4294967296 := Int.emod_eq_of_lt h1 h2
  rw [h3, h4]

theorem byteLenF_zero (fuel : Nat) : byteLenF fuel 0 = 0 := by
  cases fuel <;> simp [byteLenF]

theorem byteLenF_bounds (fuel n : Nat) (hn : 0 < n) (hfuel : n ≤ fuel) :
    256 ^ (byteLenF fuel n - 1) ≤ n ∧ n < 256 ^ byteLenF fuel n := by
  induction fuel generalizing n with
  | zero => omega
  | succ fuel ih =>
    rw [byteLenF, if_neg (Nat.pos_iff_ne_zero.mp hn)]
    by_cases hsmall : n < 256
    · have hdiv : n / 256 = 0 := Nat.div_eq_of_lt hsmall
      rw [hdiv, byteLenF_zero]
      simpa using ⟨hn, hsmall⟩
    · have hdivpos : 0 < n / 256 := Nat.div_pos (le_of_not_lt hsmall) (by norm_num)
      have hdivle : n / 256 ≤ fuel := by
        have := Nat.div_lt_self hn (by norm_num : (1:Nat) < 256)
        omega
      obtain ⟨h1, h2⟩ := ih (n / 256) hdivpos hdivle
      constructor
      · have : 256 ^ (byteLenF fuel (n / 256)) ≤ 256 * (n / 256) := by
          have hL : 1 ≤ byteLenF fuel (n / 256) := by
            by_contra h
            have : byteLenF fuel (n / 256) = 0 := by omega
            rw [this] at h2
            omega
          calc 256 ^ (byteLenF fuel (n / 256))
              = 256 * 256 ^ (byteLenF fuel (n / 256) - 1) := by
                rw [← pow_succ']
                congr 1
                omega
            _ ≤ 256 * (n / 256) := by exact Nat.mul_le_mul_left _ h1
        have h256 : 256 * (n / 256) ≤ n := by
          have := Nat.div_mul_le_self n 256
          omega
        simpa using le_trans this h256
      · have : n < 256 ^ (byteLenF fuel (n / 256)) * 256 :=
          (Nat.div_lt_iff_lt_mul (by norm_num : (0:Nat) < 256)).mp h2
        calc n < 256 ^ (byteLenF fuel (n / 256)) * 256 := this
          _ = 256 ^ (byteLenF fuel (n / 256) + 1) := by rw [pow_succ]

theorem byteLen_bounds (n : Nat) (hn : 0 < n) :
    256 ^ (byteLen n - 1) ≤ n ∧ n < 256 ^ byteLen n :=
  byteLenF_bounds n n hn le_rfl

theorem byteLen_pos (n : Nat) (hn : 0 < n) : 1 ≤ byteLen n := by
  by_contra h
  have h0 : byteLen n = 0 := by omega
  have := (byteLen_bounds n hn).2
  rw [h0] at this
  omega

/-- Decoding a nonnegative assembled compact word recovers the mantissa
shifted by the (byte-truncated) exponent. -/
theorem compactToBig_pos_encode (E M : Nat) (hM : M < 8388608) :
    CompactToBig (E % 256 * 16777216 + M) =
      if E % 256 ≤ 3 then ((M / 256 ^ (3 - E % 256) : Nat) : Int)
      else ((M * 256 ^ (E % 256 - 3) : Nat) : Int) := by
  have e1 : (E % 256 * 16777216 + M) % 8388608 = M := by omega
  have e2 : (E % 256 * 16777216 + M) / 8388608 % 2 = 0 := by omega
  have e3 : (E % 256 * 16777216 + M) / 16777216 = E % 256 := by omega
  unfold CompactToBig
  simp [e1, e2, e3]


/-- The decoded magnitude is monotone in the exponent. -/
theorem compactMag_mono (M : Nat) {e e' : Nat} (h : e ≤ e') :
    (if e ≤ 3 then M / 256 ^ (3 - e) else M * 256 ^ (e - 3)) ≤
      (if e' ≤ 3 then M / 256 ^ (3 - e') else M * 256 ^ (e' - 3)) := by
  by_cases h3 : e' ≤ 3
  · rw [if_pos (le_trans h h3), if_pos h3]
    exact Nat.div_le_div_left
      (Nat.pow_le_pow_right (by norm_num) (by omega)) (pow_pos (by norm_num) _)
  · rw [if_neg h3]
    by_cases he : e ≤ 3
    · rw [if_pos he]
      exact le_trans (Nat.div_le_self _ _)
        (Nat.le_mul_of_pos_right _ (pow_pos (by norm_num) _))
    · rw [if_neg he]
      exact Nat.mul_le_mul_left _ (Nat.pow_le_pow_right (by norm_num) (by omega))


/-- Decoding an assembled compact word with the sign bit set yields the
negation of the decoded magnitude. -/
theorem compactToBig_neg_encode (E M : Nat) (hM : M < 8388608) :
    CompactToBig (E % 256 * 16777216 + M + 8388608) =
      -(if E % 256 ≤ 3 then ((M / 256 ^ (3 - E % 256) : Nat) : Int)
        else ((M * 256 ^ (E % 256 - 3) : Nat) : Int)) := by
  have e1 : (E % 256 * 16777216 + M + 8388608) % 8388608 = M := by omega
  have e2 : (E % 256 * 16777216 + M + 8388608) / 8388608 % 2 = 1 := by omega
  have e3 : (E % 256 * 16777216 + M + 8388608) / 16777216 = E % 256 := by omega
  unfold CompactToBig
  simp only [e1, e2, e3]
  norm_num

/-- The adjusted mantissa fits in 23 bits and its decoded magnitude never
exceeds the encoded number. -/
theorem btcMantissaExp_spec (n : Nat) (hn : 0 < n) :
    (btcMantissaExp n).1 < 8388608 ∧
      (if (btcMantissaExp n).2 ≤ 3 then (btcMantissaExp n).1 / 256 ^ (3 - (btcMantissaExp n).2)
        else (btcMantissaExp n).1 * 256 ^ ((btcMantissaExp n).2 - 3)) ≤ n := by
  obtain ⟨hL1, hL2⟩ := byteLen_bounds n hn
  have hLpos := byteLen_pos n hn
  unfold btcMantissaExp
  dsimp only
  by_cases hL3 : byteLen n ≤ 3
  · rw [if_pos hL3]
    have hM0lt : n * 256 ^ (3 - byteLen n) < 16777216 := by
      calc n * 256 ^ (3 - byteLen n) < 256 ^ byteLen n * 256 ^ (3 - byteLen n) :=
            mul_lt_mul_of_pos_right hL2 (pow_pos (by norm_num) _)
        _ = 256 ^ 3 := by rw [← pow_add]; congr 1; omega
        _ = 16777216 := by norm_num
    by_cases hsh : 8388608 ≤ n * 256 ^ (3 - byteLen n)
    · rw [if_pos hsh]
      dsimp only
      refine ⟨by omega, ?_⟩
      by_cases hL2' : byteLen n + 1 ≤ 3
      · rw [if_pos hL2']
        have hexp : 3 - byteLen n = (2 - byteLen n) + 1 := by omega
        have hsplit : n * 256 ^ (3 - byteLen n) / 256 = n * 256 ^ (2 - byteLen n) := by
          rw [hexp, pow_succ, ← mul_assoc]
          exact Nat.mul_div_cancel _ (by norm_num)
        rw [hsplit]
        have hxp : 3 - (byteLen n + 1) = 2 - byteLen n := by omega
        rw [hxp]
        exact le_of_eq (Nat.mul_div_cancel _ (pow_pos (by norm_num) _))
      · rw [if_neg hL2']
        have hbl : byteLen n = 3 := by omega
        rw [hbl]
        norm_num
        exact Nat.div_mul_le_self n 256
    · rw [if_neg hsh]
      dsimp only
      refine ⟨by omega, ?_⟩
      rw [if_pos hL3]
      exact le_of_eq (Nat.mul_div_cancel _ (pow_pos (by norm_num) _))
  · rw [if_neg hL3]
    have hM0lt : n / 256 ^ (byteLen n - 3) < 16777216 := by
      refine (Nat.div_lt_iff_lt_mul (pow_pos (by norm_num) _)).mpr ?_
      calc n < 256 ^ byteLen n := hL2
        _ = 256 ^ 3 * 256 ^ (byteLen n - 3) := by rw [← pow_add]; congr 1; omega
        _ = 16777216 * 256 ^ (byteLen n - 3) := by norm_num
    by_cases hsh : 8388608 ≤ n / 256 ^ (byteLen n - 3)
    · rw [if_pos hsh]
      dsimp only
      refine ⟨by omega, ?_⟩
      rw [if_neg (by omega : ¬ byteLen n + 1 ≤ 3)]
      have hxp : byteLen n + 1 - 3 = (byteLen n - 3) + 1 := by omega
      rw [hxp, pow_succ, Nat.div_div_eq_div_mul]
      exact Nat.div_mul_le_self _ _
    · rw [if_neg hsh]
      dsimp only
      refine ⟨by omega, ?_⟩
      rw [if_neg hL3]
      exact Nat.div_mul_le_self _ _

/-- Round trip of the codec never overshoots: decoding a freshly encoded
value stays below the encoded value (below 0 for negative inputs), because
the mantissa truncation only loses low-order bytes. -/
theorem compactToBig_bigToCompact_le (x : Int) :
    CompactToBig (BigToCompact x) ≤ max x 0 := by
  by_cases hx : x = 0
  · subst hx
    decide
  · have hn : 0 < x.natAbs := Int.natAbs_pos.mpr hx
    obtain ⟨hM, hmag⟩ := btcMantissaExp_spec x.natAbs hn
    have hmono := compactMag_mono (btcMantissaExp x.natAbs).1
      (Nat.mod_le (btcMantissaExp x.natAbs).2 256)
    have hmagmod := le_trans hmono hmag
    by_cases hneg : x < 0
    · have hbtc : BigToCompact x =
          (btcMantissaExp x.natAbs).2 % 256 * 16777216 + (btcMantissaExp x.natAbs).1 + 8388608 := by
        unfold BigToCompact
        rw [if_neg hx]
        dsimp only
        rw [if_pos hneg]
      rw [hbtc, compactToBig_neg_encode _ _ hM]
      have h0 : (0:Int) ≤ max x 0 := le_max_right x 0
      have hnn : (0:Int) ≤
          (if (btcMantissaExp x.natAbs).2 % 256 ≤ 3 then
            (((btcMantissaExp x.natAbs).1 / 256 ^ (3 - (btcMantissaExp x.natAbs).2 % 256) : Nat) : Int)
          else (((btcMantissaExp x.natAbs).1 * 256 ^ ((btcMantissaExp x.natAbs).2 % 256 - 3) : Nat) : Int)) := by
        split
        · exact Int.natCast_nonneg _
        · exact Int.natCast_nonneg _
      linarith
    · have hpos : (0:Int) ≤ x := not_lt.mp hneg
      have hbtc : BigToCompact x =
          (btcMantissaExp x.natAbs).2 % 256 * 16777216 + (btcMantissaExp x.natAbs).1 := by
        unfold BigToCompact
        rw [if_neg hx]
        dsimp only
        rw [if_neg hneg]
      rw [hbtc, compactToBig_pos_encode _ _ hM]
      have hcast : ((x.natAbs : Int)) = x := Int.natAbs_of_nonneg hpos
      refine le_trans ?_ (le_max_left x 0)
      conv_rhs => rw [← hcast]
      split
      · next h3 =>
        rw [if_pos h3] at hmagmod
        exact_mod_cast hmagmod
      · next h3 =>
        rw [if_neg h3] at hmagmod
        exact_mod_cast hmagmod

/-- Clamping to a nonnegative bound and re-encoding keeps the decoded value
below the bound. -/
theorem encode_clamped_le (y P : Int) (hP : 0 ≤ P) :
    CompactToBig (BigToCompact (if y > P then P else y)) ≤ P := by
  have h := compactToBig_bigToCompact_le (if y > P then P else y)
  have h2 : max (if y > P then P else y) 0 ≤ P := by
    rcases le_or_lt y P with hy | hy
    · rw [if_neg (not_lt.mpr hy)]
      exact max_le hy hP
    · rw [if_pos hy]
      exact max_le le_rfl hP
  exact le_trans h h2

/-- The clamp of `calcDiffAdjustBitcoin` is effective: whenever the decoded
`PowLimitBits` is a genuine (nonnegative) target, the decoded result never
exceeds it, whatever the input headers. -/
theorem calcDiffAdjustBitcoin_le (start end_ : BlockHeader) (p : Params)
    (hP : 0 ≤ CompactToBig p.powLimitBits) :
    CompactToBig (calcDiffAdjustBitcoin start end_ p) ≤ CompactToBig p.powLimitBits := by
  unfold calcDiffAdjustBitcoin
  exact encode_clamped_le _ _ hP

/-- The clamp of the gravity-well finalization is effective likewise,
against `p.PowLimit`. -/
theorem kgwFinalize_le (st : KGWState) (p : Params) (hP : 0 ≤ p.powLimit) :
    CompactToBig (kgwFinalize st p) ≤ p.powLimit := by
  unfold kgwFinalize
  exact encode_clamped_le _ _ hP


/-- Any error escaping the gravity-well scan is the error of one of its
header reads. -/
theorem kgwIter_error (eh : Int → Int → Int → Bool) (r : ByteStore) (startheight : Int)
    (p : Params) (ls : BlockHeader) (fuel : Nat) :
    ∀ (i : Int) (st : KGWState) (e : DiffError),
      kgwIter eh r startheight p ls fuel i st = .error e →
      ∃ off, readHeaderAt r off = .error e := by
  induction fuel with
  | zero =>
    intro i st e h
    simp [kgwIter] at h
  | succ fuel ih =>
    intro i st e h
    rw [kgwIter] at h
    split at h
    · simp at h
    · split at h
      · simp at h
      · dsimp only at h
        split at h <;>
        · split at h
          · simp at h
          · split at h
            · simp at h
            · split at h
              · rename_i e' heq
                injection h with h2
                subst h2
                exact ⟨_, heq⟩
              · rename_i cb heq
                exact ih _ _ _ h

/-- Any error escaping `calcDiffAdjustKGW` is the error of one of its header
reads. -/
theorem calcDiffAdjustKGW_error (eh : Int → Int → Int → Bool) (r : ByteStore)
    (height startheight : Int) (p : Params) (e : DiffError)
    (h : calcDiffAdjustKGW eh r height startheight p = .error e) :
    ∃ off, readHeaderAt r off = .error e := by
  unfold calcDiffAdjustKGW at h
  split at h
  · simp at h
  · dsimp only at h
    split at h
    · rename_i e' heq
      injection h with h2
      subst h2
      exact ⟨_, heq⟩
    · rename_i cb heq
      split at h
      · rename_i e' heq2
        injection h with h2
        subst h2
        exact kgwIter_error eh r startheight p cb 4033 _ _ _ heq2
      · rename_i st heq2
        simp at h

/-- A successful gravity-well run past the early floor produces exactly a
finalized scan state. -/
theorem calcDiffAdjustKGW_ok (eh : Int → Int → Int → Bool) (r : ByteStore)
    (height startheight : Int) (p : Params) (bits : Nat)
    (hnotearly : ¬ goInt32 (height - 1) < 144)
    (h : calcDiffAdjustKGW eh r height startheight p = .ok bits) :
    ∃ st : KGWState, bits = kgwFinalize st p := by
  unfold calcDiffAdjustKGW at h
  rw [if_neg hnotearly] at h
  dsimp only at h
  split at h
  · simp at h
  · rename_i cb heq
    split at h
    · simp at h
    · rename_i st heq2
      injection h with h2
      exact ⟨st, h2.symm⟩

/-- Any error escaping `BTCDiff` is the error of one of its header reads. -/
theorem BTCDiff_error (r : ByteStore) (height startheight : Int) (p : Params)
    (e : DiffError) (h : BTCDiff r height startheight p = .error e) :
    ∃ off, readHeaderAt r off = .error e := by
  unfold BTCDiff at h
  dsimp only at h
  split at h
  · rename_i e' heq
    injection h with h2
    subst h2
    exact ⟨_, heq⟩
  · rename_i prev heq
    split at h
    · rename_i e' heq2
      injection h with h2
      subst h2
      exact ⟨_, heq2⟩
    · rename_i cur heq2
      split at h
      · rename_i e' heq3
        injection h with h2
        subst h2
        exact ⟨_, heq3⟩
      · rename_i es heq3
        split at h
        · simp at h
        · split at h
          · simp at h
          · simp at h

/-- Any error escaping `LTCDiff` is the error of one of its header reads. -/
theorem LTCDiff_error (r : ByteStore) (height startheight : Int) (p : Params)
    (e : DiffError) (h : LTCDiff r height startheight p = .error e) :
    ∃ off, readHeaderAt r off = .error e := by
  unfold LTCDiff at h
  dsimp only at h
  split at h
  · rename_i e' heq
    injection h with h2
    subst h2
    exact ⟨_, heq⟩
  · rename_i prev heq
    split at h
    · rename_i e' heq2
      injection h with h2
      subst h2
      exact ⟨_, heq2⟩
    · rename_i cur heq2
      split at h
      · rename_i e' heq3
        injection h with h2
        subst h2
        exact ⟨_, heq3⟩
      · rename_i es heq3
        split at h
        · split at h
          · rename_i e' heq4
            injection h with h2
            subst h2
            exact ⟨_, heq4⟩
          · rename_i es2 heq4
            simp at h
        · split at h
          · simp at h
          · simp at h

/-- Any error escaping `VTCTestDiff` is the error of one of its header
reads. -/
theorem VTCTestDiff_error (eh : Int → Int → Int → Bool) (r : ByteStore)
    (height startheight : Int) (p : Params) (e : DiffError)
    (h : VTCTestDiff eh r height startheight p = .error e) :
    ∃ off, readHeaderAt r off = .error e := by
  unfold VTCTestDiff at h
  split at h
  · exact LTCDiff_error _ _ _ _ _ h
  · dsimp only at h
    split at h
    · split at h
      · rename_i e' heq
        injection h with h2
        subst h2
        exact ⟨_, heq⟩
      · rename_i prev heq
        simp at h
    · exact calcDiffAdjustKGW_error _ _ _ _ _ _ h

/-! ### Claim theorems -/

/-- C5: for every pair of input headers and every parameter record whose
compact pow limit decodes to a genuine (nonnegative) target and whose target
timespan is a positive whole number of seconds, `calcDiffAdjustBitcoin`
returns a compact value whose decoded target does not exceed the decoded
`PowLimitBits`, for any timestamp delta between the two headers, including
zero, negative and very large deltas. -/
theorem c5_calcDiff_clamped (start end_ : BlockHeader) (p : Params)
    (hP : 0 ≤ CompactToBig p.powLimitBits)
    (_hts : 0 < Int.tdiv p.targetTimespan 1000000000) :
    CompactToBig (calcDiffAdjustBitcoin start end_ p) ≤ CompactToBig p.powLimitBits :=
  calcDiffAdjustBitcoin_le start end_ p hP

set_option maxRecDepth 8000 in
theorem c5_calcDiff_clamped_witness :
    0 ≤ CompactToBig mainNetParams.powLimitBits ∧
    0 < Int.tdiv mainNetParams.targetTimespan 1000000000 ∧
    CompactToBig (calcDiffAdjustBitcoin
      { version := 0, prevBlock := [], merkleRoot := [], timestamp := 1000, bits := 504365055, nonce := 0 }
      { version := 0, prevBlock := [], merkleRoot := [], timestamp := 1000, bits := 504365055, nonce := 0 }
      mainNetParams) ≤ CompactToBig mainNetParams.powLimitBits :=
  ⟨by decide, by decide,
    c5_calcDiff_clamped _ _ mainNetParams (by decide) (by decide)⟩

set_option maxRecDepth 8000 in
/-- C4 counterexample: a successful `BTCDiff` call (non-boundary height 1)
echoes the stored epoch-start bits `0x22000001` unchanged, and that compact
value decodes to `2^248`, which exceeds the mainnet PoW limit `2^224 - 1` —
so the claimed invariant fails on a successful invocation. -/
theorem c4_counterexample :
    BTCDiff (synthStore 1600000000 150 570425345 2) 1 0 mainNetParams = .ok 570425345 ∧
    ¬ (CompactToBig 570425345 ≤ mainNetParams.powLimit ∧ 0 < CompactToBig 570425345) :=
  ⟨by rfl, by decide⟩

/-- C4 amended: the clamping invariant holds for the two retarget-arithmetic
paths — `calcDiffAdjustBitcoin` never produces a value decoding above the
decoded `PowLimitBits` (when that is nonnegative), and a gravity-well run past
its early floor never produces a value decoding above `p.PowLimit` (when that
is nonnegative).  Paths that merely echo stored header bits (non-boundary
`BTCDiff`/`LTCDiff`, non-retarget `VTCTestDiff` heights) and the gravity-well
early floor return bits unchanged and carry no such bound, and strict
positivity is not guaranteed anywhere. -/
theorem c4_amended :
    (∀ (start end_ : BlockHeader) (p : Params), 0 ≤ CompactToBig p.powLimitBits →
      CompactToBig (calcDiffAdjustBitcoin start end_ p) ≤ CompactToBig p.powLimitBits) ∧
    (∀ (eh : Int → Int → Int → Bool) (r : ByteStore) (height startheight : Int)
      (p : Params) (bits : Nat),
      0 ≤ p.powLimit → ¬ goInt32 (height - 1) < 144 →
      calcDiffAdjustKGW eh r height startheight p = .ok bits →
      CompactToBig bits ≤ p.powLimit) := by
  constructor
  · intro start end_ p hP
    exact calcDiffAdjustBitcoin_le start end_ p hP
  · intro eh r height startheight p bits hP hne hok
    obtain ⟨st, rfl⟩ := calcDiffAdjustKGW_ok eh r height startheight p bits hne hok
    exact kgwFinalize_le st p hP

set_option maxRecDepth 80000 in
theorem c4_amended_witness :
    CompactToBig (calcDiffAdjustBitcoin
      { version := 0, prevBlock := [], merkleRoot := [], timestamp := 1000, bits := 504365055, nonce := 0 }
      { version := 0, prevBlock := [], merkleRoot := [], timestamp := 2000, bits := 504365055, nonce := 0 }
      mainNetParams) ≤ CompactToBig mainNetParams.powLimitBits ∧
    CompactToBig 486604799 ≤ mainNetParams.powLimit :=
  ⟨c4_amended.1 _ _ mainNetParams (by decide),
    c4_amended.2 (fun _ _ _ => false) (synthStore 1600000000 150 504365055 147) 146 0
      mainNetParams 486604799 (by decide) (by decide) (by rfl)⟩

set_option maxRecDepth 8000 in
/-- C1 counterexample: over 2017 synthetic headers spaced exactly 150 seconds
(the mainnet `targetTimePerBlock`) apart, all carrying bits `0x1e0fffff`,
`BTCDiff` at the first epoch boundary (height 2016 = the mainnet epoch
length, startHeight 0) returns `0x1e03ffff`, not the starting bits: the
epoch-start header re-read at a boundary is the current header itself, so the
measured duration is negative, not zero. -/
theorem c1_counterexample :
    epochLengthOf mainNetParams = 2016 ∧
    BTCDiff (synthStore 1600000000 150 504365055 2017) 2016 0 mainNetParams = .ok 503578623 ∧
    (503578623 : Nat) ≠ 504365055 :=
  ⟨by decide, by rfl, by decide⟩

set_option maxRecDepth 8000 in
/-- C1 amended: in the synthetic scenario `BTCDiff` at the first epoch
boundary returns the compact encoding of
`prevTarget * minRetargetTimespan / targetTimespanSeconds` — a quarter of the
starting target (`0x1e03ffff` for starting bits `0x1e0fffff`) — because the
epoch-start header re-read at the boundary is the current header itself,
making the measured duration negative and clamping it to the minimum
retarget timespan `302400 / 4 = 75600` seconds. -/
theorem c1_amended :
    BTCDiff (synthStore 1696000000 150 504365055 2017) 2016 0 mainNetParams =
      .ok (BigToCompact (Int.ediv (CompactToBig 504365055 * 75600) 302400)) ∧
    BigToCompact (Int.ediv (CompactToBig 504365055 * 75600) 302400) = 503578623 :=
  ⟨by rfl, by rfl⟩

set_option maxRecDepth 8000 in
/-- C2 counterexample: on a fixed synthetic header sequence (2017 headers,
150-second spacing, bits `0x1e0fffff`, startHeight 0) `BTCDiff` at
`height = epochLength = 2016` returns `0x1e03ffff`, while the direct
application of `calcDiffAdjustBitcoin` to header 0 (as start) and header
2015 (as end) yields `0x1e0fffff` — the two disagree, because at a boundary
`BTCDiff` reads its epoch-start header at offset `height - startHeight`, not
at offset 0. -/
theorem c2_counterexample :
    BTCDiff (synthStore 1600000000 150 504365055 2017) 2016 0 mainNetParams = .ok 503578623 ∧
    calcDiffAdjustBitcoin (parseHeaderAt (synthStore 1600000000 150 504365055 2017) 0)
      (parseHeaderAt (synthStore 1600000000 150 504365055 2017) 161200) mainNetParams =
      504365055 ∧
    (503578623 : Nat) ≠ 504365055 :=
  ⟨by rfl, by rfl, by decide⟩

/-- C2 amended: at every epoch-boundary height (`height mod epochLength = 0`)
with all three reads succeeding, `BTCDiff` returns `calcDiffAdjustBitcoin`
applied to the header at byte offset `80*(height-startHeight)` — the current
block's header, re-read as the epoch start because the boundary offset
subtracts `height mod epochLength = 0` — as start, and the header at
`80*(height-startHeight-1)` as end.  In particular at `height = epochLength`
the start header is header `epochLength`, not header 0. -/
theorem c2_amended (r : ByteStore) (height startheight : Int) (p : Params)
    (prev cur : BlockHeader)
    (hprev : readHeaderAt r (goInt32 (80 * goInt32 (goInt32 (height - startheight) - 1))) = .ok prev)
    (hcur : readHeaderAt r (goInt32 (80 * goInt32 (height - startheight))) = .ok cur)
    (hmod : Int.tmod height (epochLengthOf p) = 0) :
    BTCDiff r height startheight p = .ok (calcDiffAdjustBitcoin cur prev p) := by
  unfold BTCDiff
  dsimp only
  rw [hprev]
  dsimp only
  rw [hcur]
  dsimp only
  rw [hmod, sub_zero, goInt32_idem, hcur]
  dsimp only
  rw [if_pos rfl]

set_option maxRecDepth 8000 in
theorem c2_amended_witness :
    BTCDiff (synthStore 1600000000 150 504365055 2017) 2016 0 mainNetParams =
      .ok (calcDiffAdjustBitcoin
        (parseHeaderAt (synthStore 1600000000 150 504365055 2017) 161280)
        (parseHeaderAt (synthStore 1600000000 150 504365055 2017) 161200) mainNetParams) :=
  c2_amended _ 2016 0 mainNetParams _ _ (by rfl) (by rfl) (by decide)

set_option maxRecDepth 8000 in
/-- C3 counterexample: at boundary height 4032 = 2*epochLength (startHeight
0, 4033 synthetic headers, bits `0x1e0fffff`), `LTCDiff` re-reads its epoch
start from byte offset `(height-startHeight) - epochLength = 2016` — a
misaligned position inside header 25 whose parsed bits field is 0 — and
returns `.ok 0`, whereas applying `calcDiffAdjustBitcoin` to the header at
header index 2016 (byte offset `80*2016 = 161280`), as the claim reads the
re-seek, would give `0x1e0fffff`. -/
theorem c3_counterexample :
    LTCDiff (synthStore 1600000000 150 504365055 4033) 4032 0 mainNetParams = .ok 0 ∧
    (parseHeaderAt (synthStore 1600000000 150 504365055 4033) 2016).bits = 0 ∧
    calcDiffAdjustBitcoin (parseHeaderAt (synthStore 1600000000 150 504365055 4033) 161280)
      (parseHeaderAt (synthStore 1600000000 150 504365055 4033) 322480) mainNetParams =
      504365055 ∧
    (0 : Nat) ≠ 504365055 :=
  ⟨by rfl, by rfl, by rfl, by decide⟩

/-- C3 amended: at an epoch boundary, after the three common reads succeed,
`LTCDiff` re-reads the epoch-start record from absolute byte offset 0 (the
store's first header) when `height = epochLength`, and otherwise from
absolute byte offset `(height-startHeight) - epochLength` — an offset the
source passes to `Seek` without the `80*` scaling, so it is a header index
only when it is 0 — and returns `calcDiffAdjustBitcoin` of that re-read
record and the previous header. -/
theorem c3_amended (r : ByteStore) (height startheight : Int) (p : Params)
    (prev cur epochStart2 : BlockHeader)
    (hprev : readHeaderAt r (goInt32 (80 * goInt32 (goInt32 (height - startheight) - 1))) = .ok prev)
    (hcur : readHeaderAt r (goInt32 (80 * goInt32 (height - startheight))) = .ok cur)
    (hmod : Int.tmod height (epochLengthOf p) = 0)
    (hre : readHeaderAt r (if height = epochLengthOf p then 0
        else goInt32 (goInt32 (height - startheight) - epochLengthOf p)) = .ok epochStart2) :
    LTCDiff r height startheight p = .ok (calcDiffAdjustBitcoin epochStart2 prev p) := by
  unfold LTCDiff
  dsimp only
  rw [hprev]
  dsimp only
  rw [hcur]
  dsimp only
  rw [hmod, sub_zero, goInt32_idem, hcur]
  dsimp only
  rw [if_pos rfl, hre]

set_option maxRecDepth 8000 in
theorem c3_amended_witness :
    LTCDiff (synthStore 1600000000 150 504365055 4033) 4032 0 mainNetParams =
      .ok (calcDiffAdjustBitcoin
        (parseHeaderAt (synthStore 1600000000 150 504365055 4033) 2016)
        (parseHeaderAt (synthStore 1600000000 150 504365055 4033) 322480) mainNetParams) :=
  c3_amended _ 4032 0 mainNetParams _ _ _ (by rfl) (by rfl) (by decide) (by rfl)

/-- C6: the hybrid testnet policy dispatches exactly as claimed: below height
2116 it is `LTCDiff` on the same inputs; at height ≥ 2116 with
`height mod 12 ≠ 0` it echoes the immediately preceding block's bits (an
error if that read fails); at height ≥ 2116 with `height mod 12 = 0` it is
`calcDiffAdjustKGW` on the same inputs. -/
theorem c6_dispatch (eh : Int → Int → Int → Bool) (r : ByteStore)
    (height startheight : Int) (p : Params) :
    (height < 2116 → VTCTestDiff eh r height startheight p = LTCDiff r height startheight p) ∧
    (2116 ≤ height → Int.tmod height 12 ≠ 0 →
      VTCTestDiff eh r height startheight p =
        (readHeaderAt r (goInt32 (80 * goInt32 (goInt32 (height - startheight) - 1)))).map
          (fun hd => hd.bits)) ∧
    (2116 ≤ height → Int.tmod height 12 = 0 →
      VTCTestDiff eh r height startheight p = calcDiffAdjustKGW eh r height startheight p) := by
  refine ⟨?_, ?_, ?_⟩
  · intro hlt
    unfold VTCTestDiff
    rw [if_pos hlt]
  · intro hge hmod
    unfold VTCTestDiff
    rw [if_neg (not_lt.mpr hge)]
    dsimp only
    rw [if_pos hmod]
    cases hread : readHeaderAt r (goInt32 (80 * goInt32 (goInt32 (height - startheight) - 1))) <;>
      simp [Except.map]
  · intro hge hmod
    unfold VTCTestDiff
    rw [if_neg (not_lt.mpr hge), if_neg (fun hc => hc hmod)]

theorem c6_dispatch_witness :
    VTCTestDiff (fun _ _ _ => false) { size := 0, byteAt := fun _ => 0 } 2115 0 mainNetParams =
      LTCDiff { size := 0, byteAt := fun _ => 0 } 2115 0 mainNetParams ∧
    VTCTestDiff (fun _ _ _ => false) { size := 0, byteAt := fun _ => 0 } 2401 0 mainNetParams =
      (readHeaderAt { size := 0, byteAt := fun _ => 0 }
        (goInt32 (80 * goInt32 (goInt32 ((2401 : Int) - 0) - 1)))).map (fun hd => hd.bits) ∧
    VTCTestDiff (fun _ _ _ => false) { size := 0, byteAt := fun _ => 0 } 2400 0 mainNetParams =
      calcDiffAdjustKGW (fun _ _ _ => false) { size := 0, byteAt := fun _ => 0 } 2400 0 mainNetParams :=
  ⟨(c6_dispatch _ _ 2115 0 _).1 (by decide),
    (c6_dispatch _ _ 2401 0 _).2.1 (by decide) (by decide),
    (c6_dispatch _ _ 2400 0 _).2.2 (by decide) (by decide)⟩

/-- C7: on a non-boundary height with `ReduceMinDifficulty` enabled, a
current-block timestamp more than `2 * targetTimePerBlock` after the previous
block's timestamp forces both `BTCDiff` and `LTCDiff` to return
`PowLimitBits` instead of the epoch-start header's bits. -/
theorem c7_reduce_min (r : ByteStore) (height startheight : Int) (p : Params)
    (prev cur epochStart : BlockHeader)
    (hprev : readHeaderAt r (goInt32 (80 * goInt32 (goInt32 (height - startheight) - 1))) = .ok prev)
    (hcur : readHeaderAt r (goInt32 (80 * goInt32 (height - startheight))) = .ok cur)
    (hes : readHeaderAt r (goInt32 (80 * goInt32 (goInt32 (height - startheight) -
        Int.tmod height (epochLengthOf p)))) = .ok epochStart)
    (hmod : Int.tmod height (epochLengthOf p) ≠ 0)
    (hred : p.reduceMinDifficulty = true)
    (hslow : (cur.timestamp : Int) * 1000000000 >
        (prev.timestamp : Int) * 1000000000 + p.targetTimePerBlock * 2) :
    BTCDiff r height startheight p = .ok p.powLimitBits ∧
    LTCDiff r height startheight p = .ok p.powLimitBits := by
  constructor
  · unfold BTCDiff
    dsimp only
    rw [hprev]
    dsimp only
    rw [hcur]
    dsimp only
    rw [hes]
    dsimp only
    rw [if_neg hmod, if_pos ⟨hred, hslow⟩]
  · unfold LTCDiff
    dsimp only
    rw [hprev]
    dsimp only
    rw [hcur]
    dsimp only
    rw [hes]
    dsimp only
    rw [if_neg hmod, if_pos ⟨hred, hslow⟩]

set_option maxRecDepth 8000 in
theorem c7_reduce_min_witness :
    BTCDiff (synthStore 1600000000 400 504365055 3) 1 0 testNet3Params = .ok testNet3Params.powLimitBits ∧
    LTCDiff (synthStore 1600000000 400 504365055 3) 1 0 testNet3Params = .ok testNet3Params.powLimitBits :=
  c7_reduce_min _ 1 0 testNet3Params _ _ _ (by rfl) (by rfl) (by rfl)
    (by decide) (by decide) (by decide)

/-- C8: a failing seek or deserialization aborts every algorithm with exactly
that error (modeling Go's `(0, err)` return): a failure of the first read
each algorithm performs propagates unchanged through `BTCDiff`, `LTCDiff`,
the gravity well past its early floor, and the echo path of `VTCTestDiff`;
and conversely every error any of the four algorithms returns — including
one surfacing from the gravity well's backward scan, which aborts its
multi-read loop on a failing read — is the error of one of the store's
reads, never an invented or fallback value. -/
theorem c8_error_propagation (eh : Int → Int → Int → Bool) (r : ByteStore)
    (height startheight : Int) (p : Params) (e : DiffError) :
    (readHeaderAt r (goInt32 (80 * goInt32 (goInt32 (height - startheight) - 1))) = .error e →
      BTCDiff r height startheight p = .error e ∧
      LTCDiff r height startheight p = .error e ∧
      (¬ goInt32 (height - 1) < 144 → calcDiffAdjustKGW eh r height startheight p = .error e) ∧
      (2116 ≤ height → Int.tmod height 12 ≠ 0 → VTCTestDiff eh r height startheight p = .error e)) ∧
    ((BTCDiff r height startheight p = .error e ∨
      LTCDiff r height startheight p = .error e ∨
      calcDiffAdjustKGW eh r height startheight p = .error e ∨
      VTCTestDiff eh r height startheight p = .error e) →
      ∃ off, readHeaderAt r off = .error e) := by
  constructor
  · intro hfail
    refine ⟨?_, ?_, ?_, ?_⟩
    · unfold BTCDiff
      dsimp only
      rw [hfail]
    · unfold LTCDiff
      dsimp only
      rw [hfail]
    · intro hne
      unfold calcDiffAdjustKGW
      rw [if_neg hne]
      dsimp only
      rw [hfail]
    · intro hge hmod
      unfold VTCTestDiff
      rw [if_neg (not_lt.mpr hge)]
      dsimp only
      rw [if_pos hmod, hfail]
  · rintro (h | h | h | h)
    · exact BTCDiff_error _ _ _ _ _ h
    · exact LTCDiff_error _ _ _ _ _ h
    · exact calcDiffAdjustKGW_error _ _ _ _ _ _ h
    · exact VTCTestDiff_error _ _ _ _ _ _ h

theorem c8_error_propagation_witness :
    BTCDiff { size := 0, byteAt := fun _ => 0 } 1 0 mainNetParams =
      .error DiffError.deserializeFailed ∧
    LTCDiff { size := 0, byteAt := fun _ => 0 } 1 0 mainNetParams =
      .error DiffError.deserializeFailed ∧
    (∃ off, readHeaderAt { size := 0, byteAt := fun _ => 0 } off =
      .error DiffError.deserializeFailed) :=
  have h := c8_error_propagation (fun _ _ _ => false) { size := 0, byteAt := fun _ => 0 }
    1 0 mainNetParams DiffError.deserializeFailed
  ⟨(h.1 (by rfl)).1, (h.1 (by rfl)).2.1, h.2 (Or.inl (h.1 (by rfl)).1)⟩

/-- C9: `Register` fails exactly on an already-registered net, with
`ErrDuplicateNet`, leaving the registry untouched in that case; in every
other case it returns no error — the HD-key registration step cannot fail
because the `Params` HD key IDs are fixed 4-byte arrays, so their slices
always have length 4. -/
theorem c9_register (reg : Registry) (p : RegParams) :
    (p.net ∈ reg.registeredNets → Register reg p = (reg, some RegError.duplicateNet)) ∧
    (p.net ∉ reg.registeredNets → (Register reg p).2 = none) := by
  constructor
  · intro hmem
    unfold Register
    rw [if_pos hmem]
  · intro hmem
    unfold Register
    rw [if_neg hmem]
    dsimp only
    simp [RegisterHDKeyID, idSlice]

/-- C10: a successful `RegisterHDKeyID` makes `HDPrivateKeyToPublicKeyID`
return exactly the registered public key id for the registered private key
id; and any lookup id whose length is not 4 bytes is reported with
`ErrUnknownHDKeyID` (not `ErrInvalidHDKeyID`), on any registry state. -/
theorem c10_hdkey_lookup (reg reg' : Registry) (pub priv : List Nat) :
    (RegisterHDKeyID reg pub priv = (reg', none) →
      HDPrivateKeyToPublicKeyID reg' priv = .ok pub) ∧
    (∀ id : List Nat, id.length ≠ 4 →
      HDPrivateKeyToPublicKeyID reg id = .error RegError.unknownHDKeyID) := by
  constructor
  · intro h
    unfold RegisterHDKeyID at h
    split at h
    · simp at h
    · rename_i hlen
      push_neg at hlen
      obtain ⟨hlp, hlpr⟩ := hlen
      have hreg : reg' =
          { reg with hdPrivToPubKeyIDs := assocSet reg.hdPrivToPubKeyIDs (keyOf priv) pub } :=
        (congrArg Prod.fst h).symm
      subst hreg
      unfold HDPrivateKeyToPublicKeyID
      rw [if_neg (fun hc => hc hlpr)]
      dsimp only
      rw [assocSet]
      simp [List.find?]
  · intro id hlen
    unfold HDPrivateKeyToPublicKeyID
    rw [if_pos hlen]

theorem c9_register_witness :
    (5 : Nat) ∈ net5Registry.registeredNets ∧
    Register net5Registry (sampleRegParams 5) = (net5Registry, some RegError.duplicateNet) ∧
    (Register net5Registry (sampleRegParams 6)).2 = none :=
  ⟨by decide,
    (c9_register net5Registry (sampleRegParams 5)).1 (by decide),
    (c9_register net5Registry (sampleRegParams 6)).2 (by decide)⟩

theorem c10_hdkey_lookup_witness :
    RegisterHDKeyID emptyRegistry [4, 136, 178, 30] [4, 136, 173, 228] = (boundRegistry, none) ∧
    HDPrivateKeyToPublicKeyID boundRegistry [4, 136, 173, 228] = .ok [4, 136, 178, 30] ∧
    HDPrivateKeyToPublicKeyID boundRegistry [4, 136, 173] = .error RegError.unknownHDKeyID :=
  ⟨by rfl,
    (c10_hdkey_lookup emptyRegistry boundRegistry [4, 136, 178, 30] [4, 136, 173, 228]).1 (by rfl),
    (c10_hdkey_lookup boundRegistry boundRegistry [] []).2 [4, 136, 173] (by decide)⟩
